import Mathlib

/-!
Verification of the video compositor core (wgpu implementation).

The compositing engine lives in
`native/membrane_videocompositor_wgpu/src/compositor.rs` (`State` and its
methods), with the error taxonomy in
`native/membrane_videocompositor/src/errors.rs` and the plugin contract in
`native/membrane_video_compositor_common/src/plugins/transformation.rs`.

`State::input_videos` is a `BTreeMap<usize, InputVideo>`; we embed it as an
association list with the BTreeMap operations (`mapInsert` keeps keys sorted
when the input is sorted, replaces an existing binding, `mapLookup` finds the
first binding, `mapErase` removes it).

The submodule `compositor/videos.rs` (type `InputVideo`) is not among the
sources; its operations are modelled from the specification and are marked
`Modelled from the spec:` in their doc comments.  Timestamps (`u64` in the
code) are embedded as `Nat`: no arithmetic in the verified operations can
overflow 64 bits for the inputs considered.  The `f32`/`f64` quantities that
the claims depend on (depth values, placement coordinates) are embedded as
rationals, and `frame_period : f64` is idealized as an exact natural number
of pts units.
-/

namespace VideoCompositor

/-! ### Error taxonomy, from `membrane_videocompositor/src/errors.rs` -/

/-- The `CompositorError` enum, from `errors.rs` lines 3-19. -/
inductive CompositorError where
  | NotImplemented
  | BadVideoIndex (idx : Nat)
  | BadFramerate
  | UnsupportedPixelFormat
  | BadVideoResolution (width : Nat) (height : Nat)
  | VideoIndexAlreadyTaken (idx : Nat)
  | DifferentVideoIndexes
deriving DecidableEq

/-- An Erlang term as produced by the rustler `Encoder`: an atom, an unsigned
integer, or a tuple. -/
inductive ErlTerm where
  | atom (name : String)
  | int (n : Nat)
  | tuple (elems : List ErlTerm)

/-- The `rustler::Error` enum (the ways a NIF can report failure): `Term` is a
tagged error value, `RaiseAtom`/`RaiseTerm` are thrown Erlang exceptions. -/
inductive RustlerError where
  | BadArg
  | Atom (name : String)
  | RaiseAtom (name : String)
  | RaiseTerm (t : ErlTerm)
  | Term (t : ErlTerm)

/-- The `rustler::Encoder` impl for `CompositorError`, from `errors.rs`
lines 21-59.  Each payload-carrying arm encodes a `(atom, payload)` tuple,
except `BadVideoResolution(_, _)`, whose arm ignores both fields and encodes
the bare atom. -/
def CompositorError.encode : CompositorError → ErlTerm
  | .NotImplemented => .atom "function_not_implemented"
  | .BadVideoIndex idx => .tuple [.atom "bad_video_index", .int idx]
  | .BadFramerate => .atom "bad_framerate"
  | .UnsupportedPixelFormat => .atom "unsupported_pixel_format"
  | .BadVideoResolution _ _ => .atom "bad_video_resolution"
  | .VideoIndexAlreadyTaken idx => .tuple [.atom "video_index_already_taken", .int idx]
  | .DifferentVideoIndexes => .atom "different_video_indexes"

/-- The `From<CompositorError> for rustler::Error` impl, `errors.rs`
lines 61-65: `Self::Term(Box::new(err))`, i.e. the error is surfaced as a
tagged term value, never as a raised exception. -/
def compositorErrorToRustlerError (e : CompositorError) : RustlerError :=
  .Term e.encode

/-! ### Data model, from `compositor.rs` and the boundary structs -/

/-- Output pixel format (the boundary declares it as an atom; only I420 is
relevant to the claims). -/
inductive PixelFormat where
  | I420
deriving DecidableEq

/-- Modelled from the spec: `crate::RawVideo` (declared in the missing
`lib.rs` of the wgpu crate) is the output configuration
`{ width, height, pixel_format, framerate }` of section 6. -/
structure RawVideo where
  width : Nat
  height : Nat
  pixel_format : PixelFormat
  framerate : Nat × Nat
deriving DecidableEq

/-- Modelled from the spec: `VideoPosition` is declared in the missing
`compositor/videos.rs`; the boundary struct `VideoProperties`
(`elixir_structs.rs` lines 12-19) carries `{ x, y, z, scale }`.  The `f32`
z value and `f64` scale are embedded as rationals. -/
structure VideoPosition where
  x : Nat
  y : Nat
  z : ℚ
  scale : ℚ
deriving DecidableEq

/-- One buffered frame of an input stream: its presentation timestamp and the
(abstracted) texture contents produced from the uploaded bytes. -/
structure Frame where
  pts : Nat
  data : List Nat
deriving DecidableEq

/-- Modelled from the spec: `InputVideo` (missing `compositor/videos.rs`)
owns a FIFO queue of `(pts, texture)` pairs plus the stream's placement;
the GPU resources are not observable by any claim and are omitted. -/
structure InputVideo where
  frames : List Frame
  position : VideoPosition
deriving DecidableEq

/-- Modelled from the spec: `InputVideo::new` creates a stream with an empty
frame queue and the given placement. -/
def InputVideo.new (position : VideoPosition) : InputVideo :=
  { frames := [], position := position }

/-- Modelled from the spec: `upload_data` converts the raw bytes to a texture
(abstracted as the byte list itself) and appends `(pts, texture)` to the
queue.  The `last_pts` argument is passed by `State::upload_texture` but the
spec describes no use of it in the append path; no monotonicity check is
described as part of the append either. -/
def InputVideo.upload_data (v : InputVideo) (frame : List Nat) (pts : Nat)
    (_lastPts : Option Nat) : InputVideo :=
  { v with frames := v.frames ++ [{ pts := pts, data := frame }] }

/-- Modelled from the spec: `front_timestamp` is the pts of the oldest
un-retired frame, or none when the queue is empty. -/
def InputVideo.front_pts (v : InputVideo) : Option Nat :=
  v.frames.head?.map Frame.pts

/-- Modelled from the spec: `draw` renders the front frame as a placed quad
when one is present and returns its timestamp, otherwise renders nothing and
returns none.  Section 4.2 gives `draw` a synchronization window
`[start, end)`, but the call site in `draw_into` supplies no window and
`last_pts` is never written anywhere in the sources, so the window start is
permanently unset (the first-tick, lower-bound-free case): the front frame is
always eligible and no frame is ever strictly before the unset start, hence
none is retired.  Rendering does not change the stream state. -/
def InputVideo.draw (v : InputVideo) (_caps : RawVideo) : InputVideo × Option Nat :=
  (v, v.front_pts)

/-! ### The `BTreeMap<usize, InputVideo>` operations -/

/-- `BTreeMap::get`: first binding of the key. -/
def mapLookup (k : Nat) : List (Nat × InputVideo) → Option InputVideo
  | [] => none
  | (k', v) :: rest => if k = k' then some v else mapLookup k rest

/-- `BTreeMap::insert`: replaces the binding of `k` when present, otherwise
inserts it at its sorted position. -/
def mapInsert (k : Nat) (v : InputVideo) :
    List (Nat × InputVideo) → List (Nat × InputVideo)
  | [] => [(k, v)]
  | (k', v') :: rest =>
    if k < k' then (k, v) :: (k', v') :: rest
    else if k = k' then (k, v) :: rest
    else (k', v') :: mapInsert k v rest

/-- `BTreeMap::remove`: removes the first binding of `k`. -/
def mapErase (k : Nat) : List (Nat × InputVideo) → List (Nat × InputVideo)
  | [] => []
  | (k', v) :: rest => if k = k' then rest else (k', v) :: mapErase k rest

/-! ### Compositor state, from `compositor.rs` lines 49-62 -/

/-- The fields of `State` observable by the claims: the input stream map, the
output caps, and the synchronization anchor `last_pts` (initialized to `None`
in `State::new`, line 252, and never written anywhere in the sources).  The
GPU device, queue, pipeline, converters and output textures carry no
claim-relevant state beyond the pipeline constants embedded separately
below. -/
structure State where
  input_videos : List (Nat × InputVideo)
  output_caps : RawVideo
  last_pts : Option Nat
deriving DecidableEq

/-- `State::upload_texture`, `compositor.rs` lines 256-275: looks the index
up, returning `Err(BadVideoIndex(idx))` when absent (state untouched),
otherwise hands the frame to `upload_data` and returns `Ok(())`.  Embedded as
a result together with the post-state (`&mut self` in Rust). -/
def State.upload_texture (s : State) (idx : Nat) (frame : List Nat) (pts : Nat) :
    Except CompositorError Unit × State :=
  match mapLookup idx s.input_videos with
  | none => (.error (.BadVideoIndex idx), s)
  | some v =>
    let videos := mapInsert idx (v.upload_data frame pts s.last_pts) s.input_videos
    (.ok (), { s with input_videos := videos })

/-- `State::all_frames_ready`, `compositor.rs` lines 277-287.  The code takes
`frame_period : f64` and computes `end_pts = (last_pts as f64 + frame_period)
as u64`; the period is idealized as an exact `Nat`, so `end_pts = last_pts +
frame_period` exactly. -/
def State.all_frames_ready (s : State) (frame_period : Nat) : Bool :=
  let start_pts := s.last_pts
  let end_pts := start_pts.map (fun pts => pts + frame_period)
  s.input_videos.all fun kv =>
    kv.2.front_pts.isSome &&
      (start_pts.isNone ||
        (decide (start_pts.get! ≤ kv.2.front_pts.get!) &&
          decide (kv.2.front_pts.get! < end_pts.get!)))

/-- `State::add_video`, `compositor.rs` lines 346-356: inserts a fresh
`InputVideo` for the index and returns nothing.  `BTreeMap::insert` replaces
any existing binding, so an already-active index is silently overwritten. -/
def State.add_video (s : State) (idx : Nat) (position : VideoPosition) : State :=
  { s with input_videos := mapInsert idx (InputVideo.new position) s.input_videos }

/-- `State::remove_video`, `compositor.rs` lines 358-363: removes the binding,
returning `Err(BadVideoIndex(idx))` when absent (state untouched). -/
def State.remove_video (s : State) (idx : Nat) :
    Except CompositorError Unit × State :=
  match mapLookup idx s.input_videos with
  | none => (.error (.BadVideoIndex idx), s)
  | some _ => (.ok (), { s with input_videos := mapErase idx s.input_videos })

/-! ### The tick: `State::draw_into`, `compositor.rs` lines 290-344 -/

/-- The depth clear value of the tick's render pass:
`depth_ops: Operations { load: LoadOp::Clear(1.0), .. }`, line 313. -/
def depthClearValue : ℚ := 1

/-- The observable side effects of one `draw_into` tick, in the order the code
performs them: clear the colour target to black and the depth target to
`depthClearValue`, draw the ready streams (recorded as `(index, pts)` pairs in
iteration order), convert the colour space, download into the caller's
buffer. -/
structure TickEffects where
  colour_cleared_to_black : Bool
  depth_cleared_to : ℚ
  drawn : List (Nat × Nat)
  colour_space_converted : Bool
  downloaded : Bool
deriving DecidableEq

/-- Result of `draw_into`: the post-state (`&mut self`), the returned pts, and
the tick's effects. -/
structure DrawResult where
  state : State
  pts : Nat
  effects : TickEffects
deriving DecidableEq

/-- The body of the per-video loop of `draw_into` (lines 323-328): call
`video.draw(...)`, and on `Some(new_pts)` take `pts = pts.max(new_pts)`.
The accumulator carries the updated videos, the running max, and the list of
draws performed. -/
def drawStep (caps : RawVideo)
    (acc : List (Nat × InputVideo) × Nat × List (Nat × Nat))
    (kv : Nat × InputVideo) :
    List (Nat × InputVideo) × Nat × List (Nat × Nat) :=
  match kv.2.draw caps with
  | (v, some new_pts) =>
    (acc.1 ++ [(kv.1, v)], max acc.2.1 new_pts, acc.2.2 ++ [(kv.1, new_pts)])
  | (v, none) => (acc.1 ++ [(kv.1, v)], acc.2.1, acc.2.2)

/-- `State::draw_into`, lines 290-344: begins a render pass that clears the
colour attachment to `Color::BLACK` and the depth attachment to `1.0`, starts
`pts` at `0`, iterates the video map taking the max of the drawn timestamps,
submits, converts the colour space (`transfer_content_to_buffers`), downloads
into the output buffer, and returns `pts`.  It never writes `last_pts`. -/
def State.draw_into (s : State) : DrawResult :=
  let r := s.input_videos.foldl (drawStep s.output_caps) ([], 0, [])
  { state := { s with input_videos := r.1 },
    pts := r.2.1,
    effects :=
      { colour_cleared_to_black := true,
        depth_cleared_to := depthClearValue,
        drawn := r.2.2,
        colour_space_converted := true,
        downloaded := true } }

/-! ### Depth testing, from the pipeline configuration in `State::new`
(`compositor.rs` lines 191-230) -/

/-- `wgpu::CompareFunction`. -/
inductive CompareFunction where
  | Never | Less | Equal | LessEqual | Greater | NotEqual | GreaterEqual | Always
deriving DecidableEq

/-- `wgpu::TextureFormat`, restricted to the two formats the pipeline uses. -/
inductive TextureFormat where
  | Rgba8Unorm | Depth32Float
deriving DecidableEq

/-- The `depth_stencil` field of `wgpu::RenderPipelineDescriptor`, restricted
to the claim-relevant fields. -/
structure DepthStencilState where
  format : TextureFormat
  depth_write_enabled : Bool
  depth_compare : CompareFunction
deriving DecidableEq

/-- The depth/stencil state of the compositor's render pipeline,
`compositor.rs` lines 223-229. -/
def pipelineDepthStencil : DepthStencilState :=
  { format := .Depth32Float, depth_write_enabled := true, depth_compare := .Less }

/-- The wgpu depth comparison: does a fragment with depth `new` pass against
the stored depth `stored`? -/
def compareTest : CompareFunction → ℚ → ℚ → Bool
  | .Never, _, _ => false
  | .Less, new, stored => decide (new < stored)
  | .Equal, new, stored => decide (new = stored)
  | .LessEqual, new, stored => decide (new ≤ stored)
  | .Greater, new, stored => decide (stored < new)
  | .NotEqual, new, stored => decide (new ≠ stored)
  | .GreaterEqual, new, stored => decide (stored ≤ new)
  | .Always, _, _ => true

/-- One pixel of the colour+depth targets: the colour written (abstracted as a
tag identifying the drawn stream; `0` is the cleared black) and the stored
depth. -/
structure DepthPixel where
  colour : Nat
  depth : ℚ
deriving DecidableEq

/-- A rasterized fragment competing for a pixel: its colour tag and the depth
produced from the placement's z value. -/
structure Fragment where
  colour : Nat
  depth : ℚ
deriving DecidableEq

/-- Fixed-function depth test: the fragment replaces the pixel iff its depth
passes `depth_compare` against the stored depth; with `depth_write_enabled`
the stored depth is updated too. -/
def processFragment (ds : DepthStencilState) (p : DepthPixel) (f : Fragment) :
    DepthPixel :=
  if compareTest ds.depth_compare f.depth p.depth then
    { colour := f.colour,
      depth := if ds.depth_write_enabled then f.depth else p.depth }
  else p

/-- Process a sequence of fragments against one pixel, in draw order. -/
def renderFragments (ds : DepthStencilState) (init : DepthPixel)
    (fs : List Fragment) : DepthPixel :=
  fs.foldl (processFragment ds) init

/-- A pixel of the freshly cleared targets: black colour, depth
`depthClearValue` (the farthest value). -/
def clearedDepthPixel : DepthPixel :=
  { colour := 0, depth := depthClearValue }

/-! ### Transformation plugins, from
`membrane_video_compositor_common/src/plugins/transformation.rs` -/

/-- `PluginRegistryKey`: a string-like registry key. -/
structure PluginRegistryKey where
  key : String
deriving DecidableEq

/-- A type implementing `Transformation` (hence `CustomProcessor`), as seen
through the blanket `UntypedTransformation` impl: its statically advertised
key (`<Self as CustomProcessor>::registry_key()`), the key it reports
dynamically (`self.registry_key_dyn()`), and the `TypeId` of its declared
`Arg` type (abstracted as a tag). -/
structure TransformationImpl where
  static_registry_key : PluginRegistryKey
  dyn_registry_key : PluginRegistryKey
  arg_type_id : Nat
deriving DecidableEq

/-- Outcome of running code that may panic (`assert_eq!` /
`unwrap_or_else(|| panic!(..))` abort the process rather than returning an
error value). -/
inductive PanicOr (α : Type) where
  | panicked
  | ok (a : α)
deriving DecidableEq

/-- The blanket `UntypedTransformation::registry_key` impl,
`transformation.rs` lines 68-74: every call runs
`assert_eq!(static key, dynamic key)` — panicking on mismatch — and then
returns the static key.  There is no registration-time check anywhere in the
sources and no error value is ever produced for a mismatch. -/
def untypedRegistryKey (t : TransformationImpl) : PanicOr PluginRegistryKey :=
  if t.static_registry_key = t.dyn_registry_key
  then .ok t.static_registry_key
  else .panicked

/-- The blanket `UntypedTransformation::do_stuff` impl, `transformation.rs`
lines 76-83: downcasts the type-erased argument to `Self::Arg` on every
invocation and panics when the cast fails. -/
def untypedDoStuff (t : TransformationImpl) (arg_type_id : Nat) : PanicOr Unit :=
  if arg_type_id = t.arg_type_id then .ok () else .panicked

/-! ### Helper characterizations of the tick loop -/

/-- The `(index, pts)` pairs `draw_into` draws: one per stream with a front
frame, in map order. -/
def drawnOf (l : List (Nat × InputVideo)) : List (Nat × Nat) :=
  l.filterMap fun kv => kv.2.front_pts.map fun ts => (kv.1, ts)

/-- The maximum front timestamp over a stream collection, starting from the
code's initial `pts = 0`. -/
def frontsMax (l : List (Nat × InputVideo)) : Nat :=
  (l.filterMap fun kv => kv.2.front_pts).foldl max 0

theorem foldl_drawStep (caps : RawVideo) (l : List (Nat × InputVideo)) :
    ∀ a m d, l.foldl (drawStep caps) (a, m, d) =
      (a ++ l, (l.filterMap fun kv => kv.2.front_pts).foldl max m,
        d ++ drawnOf l) := by
  induction l with
  | nil => intro a m d; simp [drawnOf]
  | cons kv rest ih =>
    intro a m d
    cases h : kv.2.front_pts with
    | none =>
      simp only [List.foldl_cons, drawStep, InputVideo.draw, h, ih,
        List.filterMap_cons, drawnOf, Option.map_none']
      simp
    | some ts =>
      simp only [List.foldl_cons, drawStep, InputVideo.draw, h, ih,
        List.filterMap_cons, drawnOf, Option.map_some']
      simp

theorem draw_into_state_eq (s : State) : (s.draw_into).state = s := by
  simp [State.draw_into, foldl_drawStep]

theorem draw_into_pts_eq (s : State) :
    (s.draw_into).pts = frontsMax s.input_videos := by
  simp [State.draw_into, foldl_drawStep, frontsMax]

theorem draw_into_drawn_eq (s : State) :
    (s.draw_into).effects.drawn = drawnOf s.input_videos := by
  simp [State.draw_into, foldl_drawStep]

theorem draw_into_effects_eq (s : State) :
    (s.draw_into).effects.colour_cleared_to_black = true ∧
    (s.draw_into).effects.depth_cleared_to = depthClearValue ∧
    (s.draw_into).effects.colour_space_converted = true ∧
    (s.draw_into).effects.downloaded = true := by
  refine ⟨?_, ?_, ?_, ?_⟩ <;> simp [State.draw_into]

/-! ### Fold-max lemmas -/

theorem foldl_max_le_iff (l : List Nat) :
    ∀ m n, l.foldl max m ≤ n ↔ m ≤ n ∧ ∀ x ∈ l, x ≤ n := by
  induction l with
  | nil => intro m n; simp
  | cons x rest ih =>
    intro m n
    simp only [List.foldl_cons, ih, max_le_iff, List.mem_cons]
    constructor
    · rintro ⟨⟨hm, hx⟩, hrest⟩
      exact ⟨hm, fun y hy => hy.elim (fun h => h ▸ hx) (hrest y)⟩
    · rintro ⟨hm, hall⟩
      exact ⟨⟨hm, hall x (Or.inl rfl)⟩, fun y hy => hall y (Or.inr hy)⟩

theorem le_foldl_max_of_mem {l : List Nat} {x : Nat} (h : x ∈ l) (m : Nat) :
    x ≤ l.foldl max m := by
  by_contra hcon
  push_neg at hcon
  have := (foldl_max_le_iff l m (l.foldl max m)).mp le_rfl
  exact absurd (this.2 x h) (Nat.not_le.mpr hcon)

/-! ### Map lemmas -/

theorem mapLookup_insert (k : Nat) (v : InputVideo) (l : List (Nat × InputVideo)) :
    mapLookup k (mapInsert k v l) = some v := by
  induction l with
  | nil => simp [mapInsert, mapLookup]
  | cons hd tl ih =>
    by_cases h1 : k < hd.1
    · simp [mapInsert, h1, mapLookup]
    · by_cases h2 : k = hd.1
      · simp [mapInsert, h1, h2, mapLookup]
      · simp [mapInsert, h1, h2, mapLookup, ih]

theorem mapLookup_insert_ne (k j : Nat) (v : InputVideo)
    (l : List (Nat × InputVideo)) (hne : j ≠ k) :
    mapLookup j (mapInsert k v l) = mapLookup j l := by
  induction l with
  | nil => simp [mapInsert, mapLookup, hne]
  | cons hd tl ih =>
    by_cases h1 : k < hd.1
    · simp [mapInsert, h1, mapLookup, hne]
    · by_cases h2 : k = hd.1
      · by_cases h3 : j = hd.1
        · exact absurd (h3.trans h2.symm) hne
        · rw [show mapInsert k v (hd :: tl) = (k, v) :: tl from by
            simp [mapInsert, h1, h2]]
          simp only [mapLookup, if_neg hne, if_neg h3]
      · simp only [mapInsert, if_neg h1, if_neg h2, mapLookup]
        by_cases h3 : j = hd.1 <;> simp [h3, ih]

/-- Every binding of `l` survives `mapInsert k v l`, except the first binding
of `k` itself (the one `mapLookup` returns), which is replaced. -/
theorem mem_mapInsert_or_replaced (k : Nat) (v : InputVideo)
    (l : List (Nat × InputVideo)) (k' : Nat) (w : InputVideo)
    (h : (k', w) ∈ l) :
    (k', w) ∈ mapInsert k v l ∨ (k' = k ∧ mapLookup k l = some w) := by
  induction l with
  | nil => cases h
  | cons hd tl ih =>
    by_cases h1 : k < hd.1
    · left
      simp only [mapInsert, if_pos h1]
      exact List.mem_cons_of_mem _ h
    · by_cases h2 : k = hd.1
      · rcases List.mem_cons.mp h with heq | htl
        · right
          have hk' : k' = hd.1 := congrArg Prod.fst heq
          have hw : hd.2 = w := (congrArg Prod.snd heq).symm
          exact ⟨hk'.trans h2.symm, by simp [mapLookup, h2, hw]⟩
        · left
          simp only [mapInsert, if_neg h1, if_pos h2]
          exact List.mem_cons_of_mem _ htl
      · rcases List.mem_cons.mp h with heq | htl
        · left
          simp only [mapInsert, if_neg h1, if_neg h2]
          exact heq ▸ List.mem_cons_self _ _
        · rcases ih htl with hmem | ⟨hk, hlook⟩
          · left
            simp only [mapInsert, if_neg h1, if_neg h2]
            exact List.mem_cons_of_mem _ hmem
          · right
            refine ⟨hk, ?_⟩
            simpa [mapLookup, h2] using hlook

theorem mem_mapInsert_self (k : Nat) (v : InputVideo)
    (l : List (Nat × InputVideo)) : (k, v) ∈ mapInsert k v l := by
  induction l with
  | nil => simp [mapInsert]
  | cons hd tl ih =>
    by_cases h1 : k < hd.1
    · simp [mapInsert, h1]
    · by_cases h2 : k = hd.1
      · simp [mapInsert, h1, h2]
      · simp only [mapInsert, if_neg h1, if_neg h2]
        exact List.mem_cons_of_mem _ ih

/-! ### Front-timestamp preservation and monotonicity of the tick maximum -/

/-- Every stream of `l` that has a front timestamp still has the same front
timestamp in `l'` (under the same index). -/
def FrontsPreserved (l l' : List (Nat × InputVideo)) : Prop :=
  ∀ k v ts, (k, v) ∈ l → v.front_pts = some ts →
    ∃ v', (k, v') ∈ l' ∧ v'.front_pts = some ts

theorem frontsPreserved_refl (l : List (Nat × InputVideo)) :
    FrontsPreserved l l :=
  fun _ v _ hm hf => ⟨v, hm, hf⟩

theorem frontsMax_mono {l l' : List (Nat × InputVideo)}
    (h : FrontsPreserved l l') : frontsMax l ≤ frontsMax l' := by
  apply (foldl_max_le_iff _ 0 _).mpr
  refine ⟨Nat.zero_le _, fun x hx => ?_⟩
  rcases List.mem_filterMap.mp hx with ⟨kv, hkv, hfront⟩
  rcases h kv.1 kv.2 x hkv hfront with ⟨v', hmem, hfront'⟩
  apply le_foldl_max_of_mem
  exact List.mem_filterMap.mpr ⟨(kv.1, v'), hmem, hfront'⟩

/-- Appending a frame never changes a present front timestamp. -/
theorem front_pts_upload_data (v : InputVideo) (frame : List Nat) (pts : Nat)
    (lp : Option Nat) {ts : Nat} (h : v.front_pts = some ts) :
    (v.upload_data frame pts lp).front_pts = some ts := by
  cases hf : v.frames with
  | nil => simp [InputVideo.front_pts, hf] at h
  | cons a rest =>
    simp only [InputVideo.front_pts, hf, List.head?] at h
    simp [InputVideo.upload_data, InputVideo.front_pts, hf, h]

theorem upload_texture_preserves_fronts (s : State) (idx : Nat)
    (frame : List Nat) (pts : Nat) :
    FrontsPreserved s.input_videos
      ((s.upload_texture idx frame pts).2).input_videos := by
  cases hl : mapLookup idx s.input_videos with
  | none =>
    simp only [State.upload_texture, hl]
    exact frontsPreserved_refl _
  | some v =>
    simp only [State.upload_texture, hl]
    intro k w ts hm hf
    rcases mem_mapInsert_or_replaced idx (v.upload_data frame pts s.last_pts)
        s.input_videos k w hm with hmem | ⟨hk, hlook⟩
    · exact ⟨w, hmem, hf⟩
    · have hvw : w = v := by
        rw [hlook] at hl
        exact Option.some.inj hl
      refine ⟨v.upload_data frame pts s.last_pts, ?_,
        front_pts_upload_data v frame pts s.last_pts (hvw ▸ hf)⟩
      rw [hk]
      exact mem_mapInsert_self idx _ s.input_videos

/-! ### Sequences of tick-preserving operations -/

/-- The operations the steady-state "Ticking" loop performs between output
ticks: frame uploads and further ticks (no stream addition or removal). -/
inductive TickOp where
  | upload (idx : Nat) (frame : List Nat) (pts : Nat)
  | draw

def applyTickOp (s : State) : TickOp → State
  | .upload idx frame pts => (s.upload_texture idx frame pts).2
  | .draw => (s.draw_into).state

def applyTickOps (s : State) (ops : List TickOp) : State :=
  ops.foldl applyTickOp s

theorem applyTickOp_preserves_fronts (s : State) (op : TickOp) :
    FrontsPreserved s.input_videos (applyTickOp s op).input_videos := by
  cases op with
  | upload idx frame pts => exact upload_texture_preserves_fronts s idx frame pts
  | draw =>
    rw [show applyTickOp s .draw = s from draw_into_state_eq s]
    exact frontsPreserved_refl _

theorem applyTickOps_frontsMax_le (ops : List TickOp) :
    ∀ s : State, frontsMax s.input_videos ≤
      frontsMax (applyTickOps s ops).input_videos := by
  induction ops with
  | nil => intro s; simp [applyTickOps]
  | cons op rest ih =>
    intro s
    calc frontsMax s.input_videos
        ≤ frontsMax (applyTickOp s op).input_videos :=
          frontsMax_mono (applyTickOp_preserves_fronts s op)
      _ ≤ frontsMax (applyTickOps (applyTickOp s op) rest).input_videos :=
          ih (applyTickOp s op)

/-! ### Concrete states used as witnesses and counterexamples -/

/-- Output caps: 640x480, I420, 30 fps. -/
def capsEx : RawVideo :=
  { width := 640, height := 480, pixel_format := .I420, framerate := (30, 1) }

def posEx : VideoPosition := { x := 0, y := 0, z := 0, scale := 1 }

def posEx2 : VideoPosition := { x := 100, y := 100, z := 1/2, scale := 2 }

/-- A stream holding a single queued frame with pts 100. -/
def videoEx100 : InputVideo :=
  { frames := [{ pts := 100, data := [1] }], position := posEx }

/-- A state with one active stream (index 0, front pts 100) and `last_pts`
still unset, exactly as after `new`, `add_video(0, _)` and one upload. -/
def stateOne : State :=
  { input_videos := [(0, videoEx100)], output_caps := capsEx, last_pts := none }

/-- The same state with `last_pts = some 5`: the spec's window `[5, 5 + p)`
would contain the front pts 100 for a large enough period. -/
def stateAnchored : State :=
  { input_videos := [(0, videoEx100)], output_caps := capsEx, last_pts := some 5 }

/-- A state with no active streams. -/
def stateEmpty : State :=
  { input_videos := [], output_caps := capsEx, last_pts := none }

/-- A state whose single stream is starved (empty queue) while `last_pts`
would already be very large had ticks been recorded. -/
def stateStarved : State :=
  { input_videos := [(0, InputVideo.new posEx)], output_caps := capsEx,
    last_pts := some 1000000 }

theorem frontsMax_of_drawnOf_nil {l : List (Nat × InputVideo)}
    (h : drawnOf l = []) : frontsMax l = 0 := by
  have h1 : ∀ kv ∈ l, kv.2.front_pts = none := by
    intro kv hkv
    have hdrop := (List.filterMap_eq_nil_iff.mp h) kv hkv
    cases hf : kv.2.front_pts with
    | none => rfl
    | some ts => rw [hf] at hdrop; simp at hdrop
  have h2 : (l.filterMap fun kv => kv.2.front_pts) = [] :=
    List.filterMap_eq_nil_iff.mpr h1
  simp [frontsMax, h2]

/-! ### Claim C1 -/

/-- C1 counterexample: on a state with one active stream (front pts 100) and
`last_pts = some 5`, `draw_into` returns 100 but leaves `last_pts` at
`some 5`: the claim that the call advances `last_pts` to the maximum drawn
timestamp is false — `draw_into` never writes `last_pts`. -/
theorem draw_into_does_not_advance_last_pts :
    (stateAnchored.draw_into).pts = 100 ∧
    (stateAnchored.draw_into).state.last_pts = some 5 ∧
    (stateAnchored.draw_into).state.last_pts ≠
      some ((stateAnchored.draw_into).pts) := by
  have h : (stateAnchored.draw_into).pts = 100 := rfl
  refine ⟨h, rfl, ?_⟩
  rw [h, show (stateAnchored.draw_into).state.last_pts = some 5 from rfl]
  simp

/-- C1 (amended): `draw_into` draws every active stream that has a front
frame (one `(index, pts)` entry each, in map order), returns the maximum
timestamp drawn — starting from 0 — and leaves the whole state, in particular
`last_pts`, unchanged; it does not advance `last_pts`. -/
theorem draw_into_behaviour (s : State) :
    (s.draw_into).state.last_pts = s.last_pts ∧
    (s.draw_into).pts = frontsMax s.input_videos ∧
    (s.draw_into).effects.drawn = drawnOf s.input_videos := by
  refine ⟨?_, draw_into_pts_eq s, draw_into_drawn_eq s⟩
  rw [draw_into_state_eq]

/-! ### Claim C4 -/

/-- C4 counterexample: a first `draw_into` returns 100; after removing the
stream, a second `draw_into` on the resulting state returns 0 — the returned
timestamp of repeated `draw_into` calls on the same state is not monotone. -/
theorem draw_pts_can_decrease :
    (stateOne.draw_into).pts = 100 ∧
    ((((stateOne.draw_into).state).remove_video 0).2.draw_into).pts = 0 := by
  exact ⟨rfl, rfl⟩

/-- C4 (amended): across repeated `draw_into` calls between which only
`upload_texture` calls (and further ticks) occur — no stream removal or
re-addition — the returned timestamp is monotonically non-decreasing.  The
timestamp is not stored: `draw_into` leaves `last_pts` unchanged. -/
theorem draw_pts_monotone (s : State) (ops : List TickOp) :
    (s.draw_into).pts ≤ ((applyTickOps s ops).draw_into).pts := by
  rw [draw_into_pts_eq, draw_into_pts_eq]
  exact applyTickOps_frontsMax_le ops s

/-! ### Claim C10 -/

/-- C10: when no stream draws a frame during a tick (zero active streams or
every stream unready), `draw_into` still clears both targets, converts the
colour space and downloads, and returns timestamp 0 — whatever `last_pts` or
earlier returned timestamps were. -/
theorem draw_into_no_streams_ready (s : State)
    (h : (s.draw_into).effects.drawn = []) :
    (s.draw_into).pts = 0 ∧
    (s.draw_into).effects.colour_cleared_to_black = true ∧
    (s.draw_into).effects.depth_cleared_to = 1 ∧
    (s.draw_into).effects.colour_space_converted = true ∧
    (s.draw_into).effects.downloaded = true := by
  have hd := draw_into_drawn_eq s
  have hnil : drawnOf s.input_videos = [] := hd.symm.trans h
  have heff := draw_into_effects_eq s
  refine ⟨?_, heff.1, ?_, heff.2.2.1, heff.2.2.2⟩
  · rw [draw_into_pts_eq]
    exact frontsMax_of_drawnOf_nil hnil
  · rw [heff.2.1]
    rfl

/-- C10 witness: a starved stream (empty queue) with `last_pts` already at
1000000: the tick draws nothing, still clears/converts/downloads, and
returns 0. -/
theorem draw_into_no_streams_ready_witness :
    (stateStarved.draw_into).pts = 0 ∧
    (stateStarved.draw_into).effects.colour_cleared_to_black = true ∧
    (stateStarved.draw_into).effects.depth_cleared_to = 1 ∧
    (stateStarved.draw_into).effects.colour_space_converted = true ∧
    (stateStarved.draw_into).effects.downloaded = true :=
  draw_into_no_streams_ready stateStarved rfl

/-! ### Claim C2 -/

/-- C2: `all_frames_ready(frame_period)` is true iff every active stream has
a front frame whose timestamp lies in `[last_pts, last_pts + frame_period)`
whenever `last_pts` is set; with zero active streams it is true; and when
`last_pts` is unset it is true exactly when every stream merely has a front
frame (the check free of window bounds). -/
theorem all_frames_ready_iff (s : State) (p : Nat) :
    (s.all_frames_ready p = true ↔
      ∀ kv ∈ s.input_videos, ∃ ts, kv.2.front_pts = some ts ∧
        ∀ l, s.last_pts = some l → l ≤ ts ∧ ts < l + p) ∧
    (s.input_videos = [] → s.all_frames_ready p = true) ∧
    (s.last_pts = none →
      (s.all_frames_ready p = true ↔
        ∀ kv ∈ s.input_videos, kv.2.front_pts.isSome = true)) := by
  have helem : ∀ v : InputVideo,
      (v.front_pts.isSome &&
        (s.last_pts.isNone ||
          (decide (s.last_pts.get! ≤ v.front_pts.get!) &&
            decide (v.front_pts.get! <
              (s.last_pts.map (fun pts => pts + p)).get!)))) = true ↔
      ∃ ts, v.front_pts = some ts ∧
        ∀ l, s.last_pts = some l → l ≤ ts ∧ ts < l + p := by
    intro v
    cases hl : s.last_pts with
    | none => cases hf : v.front_pts <;> simp [hf]
    | some l => cases hf : v.front_pts <;> simp [hf, Option.get!]
  refine ⟨?_, ?_, ?_⟩
  · simp only [State.all_frames_ready, List.all_eq_true]
    constructor
    · intro h kv hkv; exact (helem kv.2).mp (h kv hkv)
    · intro h kv hkv; exact (helem kv.2).mpr (h kv hkv)
  · intro h
    simp [State.all_frames_ready, h]
  · intro hnone
    simp [State.all_frames_ready, List.all_eq_true, hnone]

/-- C2 witness: with zero active streams the guard is true. -/
theorem all_frames_ready_iff_witness : stateEmpty.all_frames_ready 33 = true :=
  (all_frames_ready_iff stateEmpty 33).2.1 rfl

/-! ### Claim C3 -/

/-- C3 counterexample: index 0 is active with one queued frame (pts 100);
calling `add_video` again for index 0 succeeds (it returns no error — its
return type carries none) and replaces the stream: the queued frame is gone.
The original stream does not remain unaffected and no already-taken error is
produced. -/
theorem add_video_replaces_existing :
    (mapLookup 0 ((stateOne.add_video 0 posEx2).input_videos)).map
        InputVideo.frames = some [] ∧
    (mapLookup 0 stateOne.input_videos).map InputVideo.frames =
      some [{ pts := 100, data := [1] }] :=
  ⟨rfl, rfl⟩

/-- C3 (amended): calling `add_video` with an already-active index silently
replaces the existing stream with a fresh, empty one (dropping its queued
frames); other streams are untouched.  No video-index-already-taken error is
returned — `add_video` has no error return at all. -/
theorem add_video_overwrites (s : State) (idx : Nat) (pos : VideoPosition) :
    mapLookup idx ((s.add_video idx pos).input_videos) =
      some (InputVideo.new pos) ∧
    ∀ j, j ≠ idx → mapLookup j ((s.add_video idx pos).input_videos) =
      mapLookup j s.input_videos := by
  constructor
  · simp [State.add_video, mapLookup_insert]
  · intro j hj
    simp [State.add_video, mapLookup_insert_ne idx j _ _ hj]

/-- C3 amended-claim witness: re-adding index 0 over `stateOne` yields the
fresh stream at index 0 and leaves index 3 (absent) as before. -/
theorem add_video_overwrites_witness :
    mapLookup 0 ((stateOne.add_video 0 posEx2).input_videos) =
      some (InputVideo.new posEx2) ∧
    mapLookup 3 ((stateOne.add_video 0 posEx2).input_videos) =
      mapLookup 3 stateOne.input_videos :=
  ⟨(add_video_overwrites stateOne 0 posEx2).1,
   (add_video_overwrites stateOne 0 posEx2).2 3 (by decide)⟩

/-! ### Claim C5 -/

/-- C5 counterexample: the stream's previously uploaded frame has pts 100,
yet uploading pts 50 returns `Ok(())`: the monotonicity violation is not
surfaced to the caller. -/
theorem upload_decreasing_pts_not_surfaced :
    (stateOne.upload_texture 0 [2] 50).1 = Except.ok () ∧
    (mapLookup 0 stateOne.input_videos).map InputVideo.front_pts =
      some (some 100) ∧ 50 < 100 :=
  ⟨rfl, rfl, by decide⟩

/-- C5 (amended): `upload_texture` performs no pts-monotonicity check: on any
active stream it returns `Ok(())` and appends the frame to the queue whatever
the pts is — in particular one smaller than the previous frame's.  The only
error it can report is bad-video-index. -/
theorem upload_texture_no_monotonicity_check (s : State) (idx : Nat)
    (frame : List Nat) (pts : Nat) (v : InputVideo)
    (h : mapLookup idx s.input_videos = some v) :
    (s.upload_texture idx frame pts).1 = Except.ok () ∧
    mapLookup idx ((s.upload_texture idx frame pts).2).input_videos =
      some { v with frames := v.frames ++ [{ pts := pts, data := frame }] } := by
  refine ⟨by simp [State.upload_texture, h], ?_⟩
  simp [State.upload_texture, h, mapLookup_insert, InputVideo.upload_data]

/-- C5 witness: uploading pts 50 after a frame with pts 100 succeeds and is
appended out of order. -/
theorem upload_texture_no_monotonicity_check_witness :
    (stateOne.upload_texture 0 [2] 50).1 = Except.ok () ∧
    mapLookup 0 ((stateOne.upload_texture 0 [2] 50).2).input_videos =
      some { videoEx100 with
        frames := videoEx100.frames ++ [{ pts := 50, data := [2] }] } :=
  upload_texture_no_monotonicity_check stateOne 0 [2] 50 videoEx100 rfl

/-! ### Claim C6 -/

/-- C6: `upload_texture` on an active index returns Ok; on an index never
added or already removed, both `upload_texture` and `remove_video` return
`BadVideoIndex` carrying that index and leave the state unchanged. -/
theorem index_errors (s : State) (idx : Nat) (frame : List Nat) (pts : Nat) :
    ((∃ v, mapLookup idx s.input_videos = some v) →
      (s.upload_texture idx frame pts).1 = Except.ok ()) ∧
    (mapLookup idx s.input_videos = none →
      s.upload_texture idx frame pts =
        (Except.error (CompositorError.BadVideoIndex idx), s) ∧
      s.remove_video idx =
        (Except.error (CompositorError.BadVideoIndex idx), s)) := by
  constructor
  · rintro ⟨v, hv⟩
    simp [State.upload_texture, hv]
  · intro h
    exact ⟨by simp [State.upload_texture, h], by simp [State.remove_video, h]⟩

/-- C6 witness: index 0 is active in `stateOne` so upload succeeds; index 7
was never added, so upload and remove both report `BadVideoIndex 7` and leave
the state unchanged. -/
theorem index_errors_witness :
    (stateOne.upload_texture 0 [1] 200).1 = Except.ok () ∧
    stateOne.upload_texture 7 [1] 200 =
      (Except.error (CompositorError.BadVideoIndex 7), stateOne) ∧
    stateOne.remove_video 7 =
      (Except.error (CompositorError.BadVideoIndex 7), stateOne) :=
  ⟨(index_errors stateOne 0 [1] 200).1 ⟨videoEx100, rfl⟩,
   ((index_errors stateOne 7 [1] 200).2 rfl).1,
   ((index_errors stateOne 7 [1] 200).2 rfl).2⟩

/-! ### Claim C7 -/

/-- C7 counterexample: encoding `BadVideoResolution(640, 480)` produces the
bare atom, identical to the encoding of any other resolution — the
(width, height) payload is not carried across the boundary. -/
theorem bad_video_resolution_payload_dropped :
    CompositorError.encode (.BadVideoResolution 640 480) =
      ErlTerm.atom "bad_video_resolution" ∧
    CompositorError.encode (.BadVideoResolution 640 480) =
      CompositorError.encode (.BadVideoResolution 1920 1080) :=
  ⟨rfl, rfl⟩

/-- C7 (amended): every variant is surfaced at the boundary as a tagged term
value (never a raised exception); bad-video-index and
video-index-already-taken carry their index as a `(atom, index)` tuple, but
bad-video-resolution is encoded as the bare atom, dropping the
(width, height) pair that the Rust variant holds. -/
theorem error_encoding_amended :
    (∀ e : CompositorError, ∃ t,
      compositorErrorToRustlerError e = RustlerError.Term t) ∧
    (∀ idx, CompositorError.encode (.BadVideoIndex idx) =
      ErlTerm.tuple [.atom "bad_video_index", .int idx]) ∧
    (∀ idx, CompositorError.encode (.VideoIndexAlreadyTaken idx) =
      ErlTerm.tuple [.atom "video_index_already_taken", .int idx]) ∧
    (∀ w h, CompositorError.encode (.BadVideoResolution w h) =
      ErlTerm.atom "bad_video_resolution") ∧
    CompositorError.encode .NotImplemented =
      ErlTerm.atom "function_not_implemented" ∧
    CompositorError.encode .BadFramerate = ErlTerm.atom "bad_framerate" ∧
    CompositorError.encode .UnsupportedPixelFormat =
      ErlTerm.atom "unsupported_pixel_format" ∧
    CompositorError.encode .DifferentVideoIndexes =
      ErlTerm.atom "different_video_indexes" :=
  ⟨fun e => ⟨e.encode, rfl⟩, fun _ => rfl, fun _ => rfl, fun _ _ => rfl,
    rfl, rfl, rfl, rfl⟩

/-! ### Claim C8 -/

/-- A transformation whose static and dynamic registry keys disagree. -/
def mismatchedTransformation : TransformationImpl :=
  { static_registry_key := { key := "custom transformation" },
    dyn_registry_key := { key := "other transformation" },
    arg_type_id := 0 }

/-- A transformation whose static and dynamic registry keys agree. -/
def matchedTransformation : TransformationImpl :=
  { static_registry_key := { key := "custom transformation" },
    dyn_registry_key := { key := "custom transformation" },
    arg_type_id := 0 }

/-- C8 counterexample: a key mismatch is not rejected by any
registration-time check — it panics inside `registry_key` (the `assert_eq!`),
which runs on every call — and even with matching keys, invoking `do_stuff`
with a wrongly-typed argument reaches the panic branch at invocation time. -/
theorem registry_key_mismatch_panics :
    untypedRegistryKey mismatchedTransformation = PanicOr.panicked ∧
    untypedDoStuff matchedTransformation 1 = PanicOr.panicked := by
  constructor
  · simp [untypedRegistryKey, mismatchedTransformation]
  · simp [untypedDoStuff, matchedTransformation]

/-- C8 (amended): the static/dynamic key match is checked by an assertion
inside the blanket `registry_key` implementation, which runs on every call
and panics — rather than returning a rejection — exactly when the keys
differ; and `do_stuff` performs a fallible downcast on every invocation that
panics exactly when the argument type differs from the declared one,
independently of the key match.  No registration-time verification exists in
the sources. -/
theorem key_check_asserts_every_call (t : TransformationImpl) (a : Nat) :
    (untypedRegistryKey t = PanicOr.ok t.static_registry_key ↔
      t.static_registry_key = t.dyn_registry_key) ∧
    (untypedRegistryKey t = PanicOr.panicked ↔
      t.static_registry_key ≠ t.dyn_registry_key) ∧
    (untypedDoStuff t a = PanicOr.panicked ↔ a ≠ t.arg_type_id) := by
  refine ⟨?_, ?_, ?_⟩
  · by_cases h : t.static_registry_key = t.dyn_registry_key <;>
      simp [untypedRegistryKey, h]
  · by_cases h : t.static_registry_key = t.dyn_registry_key <;>
      simp [untypedRegistryKey, h]
  · by_cases h : a = t.arg_type_id <;> simp [untypedDoStuff, h]

/-! ### Claim C9 -/

/-- C9: every tick clears the depth buffer to 1.0 (the farthest value), the
pipeline's depth comparison function is less-than, and consequently for two
overlapping placements the one with the lower z value wins the pixel
regardless of draw order (the lower z being a valid depth, i.e. under the
cleared 1.0). -/
theorem depth_ordering (s : State) (z1 z2 : ℚ) (c1 c2 : Nat)
    (h12 : z1 < z2) (h1 : z1 < 1) :
    (s.draw_into).effects.depth_cleared_to = 1 ∧
    pipelineDepthStencil.depth_compare = CompareFunction.Less ∧
    (renderFragments pipelineDepthStencil clearedDepthPixel
      [{ colour := c1, depth := z1 }, { colour := c2, depth := z2 }]).colour
        = c1 ∧
    (renderFragments pipelineDepthStencil clearedDepthPixel
      [{ colour := c2, depth := z2 }, { colour := c1, depth := z1 }]).colour
        = c1 := by
  refine ⟨?_, rfl, ?_, ?_⟩
  · rw [(draw_into_effects_eq s).2.1]; rfl
  · simp only [renderFragments, List.foldl_cons, List.foldl_nil]
    have hstep1 : processFragment pipelineDepthStencil clearedDepthPixel
        { colour := c1, depth := z1 } = { colour := c1, depth := z1 } := by
      simp [processFragment, pipelineDepthStencil, compareTest,
        clearedDepthPixel, depthClearValue, h1]
    rw [hstep1]
    have hfail : ¬ (z2 < z1) := not_lt.mpr (le_of_lt h12)
    simp [processFragment, pipelineDepthStencil, compareTest, hfail]
  · simp only [renderFragments, List.foldl_cons, List.foldl_nil]
    rcases lt_or_le z2 1 with h2 | h2
    · have hstep1 : processFragment pipelineDepthStencil clearedDepthPixel
          { colour := c2, depth := z2 } = { colour := c2, depth := z2 } := by
        simp [processFragment, pipelineDepthStencil, compareTest,
          clearedDepthPixel, depthClearValue, h2]
      rw [hstep1]
      simp [processFragment, pipelineDepthStencil, compareTest, h12]
    · have hnot : ¬ (z2 < (1 : ℚ)) := not_lt.mpr h2
      have hstep1 : processFragment pipelineDepthStencil clearedDepthPixel
          { colour := c2, depth := z2 } = clearedDepthPixel := by
        simp [processFragment, pipelineDepthStencil, compareTest,
          clearedDepthPixel, depthClearValue, hnot]
      rw [hstep1]
      simp [processFragment, pipelineDepthStencil, compareTest,
        clearedDepthPixel, depthClearValue, h1]

/-- C9 witness: with placements at z = 0 and z = 1/2, the z = 0 stream's
colour wins the overlapped pixel in both draw orders. -/
theorem depth_ordering_witness :
    (0 : ℚ) < 1/2 ∧ (0 : ℚ) < 1 ∧
    ((stateOne.draw_into).effects.depth_cleared_to = 1 ∧
      pipelineDepthStencil.depth_compare = CompareFunction.Less ∧
      (renderFragments pipelineDepthStencil clearedDepthPixel
        [{ colour := 1, depth := 0 }, { colour := 2, depth := 1/2 }]).colour
          = 1 ∧
      (renderFragments pipelineDepthStencil clearedDepthPixel
        [{ colour := 2, depth := 1/2 }, { colour := 1, depth := 0 }]).colour
          = 1) :=
  ⟨by norm_num, by norm_num,
    depth_ordering stateOne 0 (1/2) 1 2 (by norm_num) (by norm_num)⟩

end VideoCompositor
